import Mathlib

/-!
The build orchestration pipeline of gokr-build-kernel.

A shallow embedding of `cmd/gokr-build-kernel/build.go`.

* Go `error` values are `Option String`: `none` is `nil`, `some msg` an error
  whose `Error()` text is `msg`.
* The outside world (the network, the file system, the programs that are run)
  is a parameter that fixes the outcome of every external step.
* `main`, `compile` and `applyPatches` are embedded at the level of the steps
  whose result they inspect (`downloadKernel()`, `cmd.Run()`, `copyFile`,
  `os.Open`, `os.Chdir`); `downloadKernel` and `copyFile` are embedded a second
  time over an explicit file system with open handles.
* The informational `log.Printf` lines are not embedded; `log.Fatal` is the
  returned fatal message.
-/

namespace GokrBuildKernel

/-! ## Values shared by the whole program -/

/-- Go `error`: `none` is `nil`, `some msg` is an error with text `msg`. -/
abbrev GoError := Option String

/-- The package variable `latest`: the pinned source archive. -/
def latest : String :=
  "https://github.com/raspberrypi/linux/archive/b5dbe58ae4140a1ef7b86e4757e872c209b9f9ab.tar.gz"

/-- Modelled from the spec: part of `filepath.Base` (Go standard library): drop the
trailing slashes of a path. -/
def stripTrailingSlashes (cs : List Char) : List Char :=
  (cs.reverse.dropWhile (fun c => c == '/')).reverse

/-- Modelled from the spec: part of `filepath.Base` (Go standard library): the
characters after the last slash. -/
def lastElement (cs : List Char) : List Char :=
  (cs.reverse.takeWhile (fun c => c != '/')).reverse

/-- Modelled from the spec: `filepath.Base` belongs to Go's standard library, not
to the repository. It returns "the URL's final path segment": trailing slashes
are dropped, then everything up to the last slash; the empty path gives ".",
a path of slashes only gives "/". -/
def Base (path : String) : String :=
  if path = "" then "." else
    let p := lastElement (stripTrailingSlashes path.data)
    if p = [] then "/" else String.mk p

/-- Modelled from the spec: `strings.TrimSuffix` belongs to Go's standard library.
It returns `s` "with its compression suffix stripped" when `s` ends in `suffix`,
and `s` unchanged otherwise. -/
def TrimSuffix (s suffix : String) : String :=
  if suffix.data.isSuffixOf s.data then
    String.mk (s.data.take (s.data.length - suffix.data.length))
  else s

/-- Modelled from the spec: part of `filepath.Glob` (Go standard library), the
matching of `*`: the rest of the pattern `k` is tried at every position the
star can reach; a star does not cross a path separator. -/
def starMatch (k : List Char → Bool) : List Char → Bool
  | [] => k []
  | c :: cs => k (c :: cs) || (c != '/' && starMatch k cs)

/-- Modelled from the spec: part of `filepath.Glob` (Go standard library), shell
pattern matching for patterns made of literal characters, `?` and `*` (the
pattern of the program, `*.patch`, uses a star and literals only). -/
def globMatch : List Char → List Char → Bool
  | [] => fun name => name.isEmpty
  | p :: ps =>
    if p = '*' then starMatch (globMatch ps)
    else fun name =>
      match name with
      | [] => false
      | c :: cs => (p == '?' && c != '/' || p == c) && globMatch ps cs

/-- Modelled from the spec: the "lexicographic by filename" order of discovery,
character by character. -/
def nameLE (a b : String) : Prop := a.data ≤ b.data

instance nameLE_decidable : DecidableRel nameLE :=
  fun a b => inferInstanceAs (Decidable (a.data ≤ b.data))

/-- Modelled from the spec: `filepath.Glob` belongs to Go's standard library, not
to the repository. Of the names in the invocation directory (`names`, in the
order the directory is read) it returns those that match the pattern, in
"deterministic (lexicographic)" order; a pattern that matches nothing gives the
empty list and no error. -/
def Glob (names : List String) (pattern : String) : Except String (List String) :=
  Except.ok ((names.filter (fun n => globMatch pattern.data n.data)).insertionSort nameLE)

/-! ## The orchestration level -/

/-- An `*exec.Cmd` as the program fills it in before `Run`. -/
structure Cmd where
  /-- The program and its arguments: `exec.Command(name, arg...)`. -/
  args : List String
  /-- Field `cmd.Dir`; the empty string is the caller's working directory. -/
  dir : String
  /-- Field `cmd.Env`; `none` is `nil`: the process runs with `os.Environ()`. -/
  env : Option (List String)
  /-- Field `cmd.Stdin`: the path of the file opened for it; `none` is `nil`. -/
  stdin : Option String
  deriving DecidableEq, Repr

/-- The external steps whose result the program inspects. -/
inductive Action where
  /-- A call of `downloadKernel()`. -/
  | download
  /-- A call of `os.Open(path)`. -/
  | openFile (path : String)
  /-- A call of `cmd.Run()`. -/
  | run (c : Cmd)
  /-- A call of `copyFile(dest, src)`. -/
  | copyFile (dest src : String)
  /-- A call of `os.Chdir(dir)`. -/
  | chdir (dir : String)
  deriving DecidableEq, Repr

/-- The world the program runs in. -/
structure World where
  /-- The error each external step returns (`none`: it succeeds). -/
  result : Action → GoError
  /-- The ambient environment, `os.Environ()`. -/
  environ : List String
  /-- The number of processing units, `runtime.NumCPU()`. -/
  numCPU : Nat
  /-- The names in the invocation directory, in the order they are read. -/
  dirNames : List String

/-- The state of the process: the steps performed so far and the table of open
files. -/
structure Proc where
  /-- The external steps performed, oldest first. -/
  trace : List Action
  /-- The handles that are open. -/
  openFiles : List Nat
  /-- The next fresh handle. -/
  nextFd : Nat
  deriving DecidableEq, Repr

/-- The process at start: nothing done, nothing open. -/
def Proc.start : Proc := ⟨[], [], 0⟩

/-- Perform one external step: it is recorded, and the world decides its result. -/
def perform (w : World) (a : Action) (s : Proc) : Proc × GoError :=
  ({ s with trace := s.trace ++ [a] }, w.result a)

/-- Call `os.Open(path)`: on success a fresh handle is open. -/
def osOpen (w : World) (path : String) (s : Proc) : Proc × Except String Nat :=
  match perform w (Action.openFile path) s with
  | (s, some err) => (s, Except.error err)
  | (s, none) =>
    ({ s with openFiles := s.nextFd :: s.openFiles, nextFd := s.nextFd + 1 }, Except.ok s.nextFd)

/-- Call `f.Close()`: the handle is no longer open (closing twice is harmless). -/
def closeFile (f : Nat) (s : Proc) : Proc :=
  { s with openFiles := s.openFiles.filter (fun h => h != f) }

/-- Run the deferred `f.Close()` calls at function return, last deferred first. -/
def runDeferred (deferred : List Nat) (s : Proc) : Proc :=
  deferred.foldl (fun s f => closeFile f s) s

/-- The command of one loop iteration of `applyPatches`. -/
def patchCmd (srcdir patch : String) : Cmd :=
  { args := ["patch", "-p1"], dir := srcdir, env := none, stdin := some patch }

/-- The `for _, patch := range patches` loop of `applyPatches`; `deferred` holds
the handles whose `Close` has been deferred, last deferred first. -/
def applyPatchesLoop (w : World) (srcdir : String) :
    List String → List Nat → Proc → Proc × GoError
  | [], deferred, s => (runDeferred deferred s, none)
  | patch :: rest, deferred, s =>
    match osOpen w patch s with
    | (s, Except.error err) => (runDeferred deferred s, some err)
    | (s, Except.ok f) =>
      let deferred := f :: deferred
      match perform w (Action.run (patchCmd srcdir patch)) s with
      | (s, some err) => (runDeferred deferred s, some err)
      | (s, none) => applyPatchesLoop w srcdir rest deferred (closeFile f s)

/-- Function `applyPatches(srcdir)`. -/
def applyPatches (w : World) (srcdir : String) (s : Proc) : Proc × GoError :=
  match Glob w.dirNames "*.patch" with
  | Except.error err => (s, some err)
  | Except.ok patches => applyPatchesLoop w srcdir patches [] s

/-- The command `make ARCH=arm64 gooniebox_defconfig` of `compile`. -/
def defconfigCmd : Cmd :=
  { args := ["make", "ARCH=arm64", "gooniebox_defconfig"], dir := "", env := none, stdin := none }

/-- The slice `env` of `compile`. -/
def compileEnv (w : World) : List String :=
  w.environ ++ ["ARCH=arm64",
    "CROSS_COMPILE=aarch64-linux-gnu-",
    "KBUILD_BUILD_USER=gokrazy",
    "KBUILD_BUILD_HOST=docker",
    "KBUILD_BUILD_TIMESTAMP=Wed Mar  1 20:57:29 UTC 2017"]

/-- The command `make Image.gz dtbs modules -jN` of `compile`. -/
def makeCmd (w : World) : Cmd :=
  { args := ["make", "Image.gz", "dtbs", "modules", "-j" ++ toString w.numCPU],
    dir := "", env := some (compileEnv w), stdin := none }

/-- The command `make INSTALL_MOD_PATH=/tmp/buildresult modules_install -jN`. -/
def modulesInstallCmd (w : World) : Cmd :=
  { args := ["make", "INSTALL_MOD_PATH=/tmp/buildresult", "modules_install",
      "-j" ++ toString w.numCPU],
    dir := "", env := some (compileEnv w), stdin := none }

/-- Function `compile()`. -/
def compile (w : World) (s : Proc) : Proc × GoError :=
  match perform w (Action.run defconfigCmd) s with
  | (s, some err) => (s, some ("make defconfig: " ++ err))
  | (s, none) =>
    match perform w (Action.run (makeCmd w)) s with
    | (s, some err) => (s, some ("make: " ++ err))
    | (s, none) =>
      match perform w (Action.run (modulesInstallCmd w)) s with
      | (s, some err) => (s, some ("make: " ++ err))
      | (s, none) => (s, none)

/-- The command `tar xf <archive>` of `main`. -/
def untarCmd : Cmd :=
  { args := ["tar", "xf", Base latest], dir := "", env := none, stdin := none }

/-- The variable `srcdir` of `main`. -/
def srcdir : String := "linux-" ++ TrimSuffix (Base latest) ".tar.gz"

/-- Function `main()`: the final state and the message of `log.Fatal`
(`none`: the program ends normally). -/
def main (w : World) (s : Proc) : Proc × Option String :=
  match perform w Action.download s with
  | (s, some err) => (s, some err)
  | (s, none) =>
  match perform w (Action.run untarCmd) s with
  | (s, some err) => (s, some ("untar: " ++ err))
  | (s, none) =>
  match perform w
      (Action.copyFile (srcdir ++ "/arch/arm64/configs/gooniebox_defconfig") "defconfig") s with
  | (s, some err) => (s, some err)
  | (s, none) =>
  match applyPatches w srcdir s with
  | (s, some err) => (s, some err)
  | (s, none) =>
  match perform w (Action.chdir srcdir) s with
  | (s, some err) => (s, some err)
  | (s, none) =>
  match compile w s with
  | (s, some err) => (s, some err)
  | (s, none) =>
  match perform w (Action.copyFile "/tmp/buildresult/vmlinuz" "arch/arm64/boot/Image") s with
  | (s, some err) => (s, some err)
  | (s, none) =>
  match perform w (Action.copyFile "/tmp/buildresult/bcm2710-rpi-3-b.dtb"
      "arch/arm64/boot/dts/broadcom/bcm2710-rpi-3-b.dtb") s with
  | (s, some err) => (s, some err)
  | (s, none) =>
  match perform w (Action.copyFile "/tmp/buildresult/bcm2710-rpi-3-b-plus.dtb"
      "arch/arm64/boot/dts/broadcom/bcm2710-rpi-3-b-plus.dtb") s with
  | (s, some err) => (s, some err)
  | (s, none) =>
  match perform w (Action.copyFile "/tmp/buildresult/bcm2710-rpi-cm3.dtb"
      "arch/arm64/boot/dts/broadcom/bcm2710-rpi-cm3.dtb") s with
  | (s, some err) => (s, some err)
  | (s, none) =>
  match perform w (Action.copyFile "/tmp/buildresult/bcm2711-rpi-4-b.dtb"
      "arch/arm64/boot/dts/broadcom/bcm2711-rpi-4-b.dtb") s with
  | (s, some err) => (s, some err)
  | (s, none) =>
  match perform w (Action.copyFile "/tmp/buildresult/bcm2710-rpi-zero-2-w.dtb"
      "arch/arm64/boot/dts/broadcom/bcm2710-rpi-zero-2-w.dtb") s with
  | (s, some err) => (s, some err)
  | (s, none) => (s, none)

/-! ## The file-system level -/

/-- A regular file: its content and its mode bits. -/
structure File where
  /-- The bytes of the file. -/
  bytes : List Nat
  /-- The mode of the file (`FileMode`: the permission bits). -/
  mode : Nat
  deriving DecidableEq, Repr

/-- An open `*os.File`: its handle and the path it was opened at. -/
structure OsFile where
  /-- The handle. -/
  fd : Nat
  /-- The path given to `os.Create` or `os.Open`. -/
  path : String
  deriving DecidableEq, Repr

/-- The input/output steps of `downloadKernel` and `copyFile`. -/
inductive FsOp where
  /-- A call of `os.Create(path)`. -/
  | create (path : String)
  /-- A call of `os.Open(path)`. -/
  | openRead (path : String)
  /-- A call of `http.Get(url)`. -/
  | get (url : String)
  /-- A call of `io.Copy(out, in)` between two files. -/
  | copy (dst src : String)
  /-- A call of `io.Copy(out, resp.Body)`. -/
  | copyBody (dst : String)
  /-- A call of `in.Stat()`. -/
  | stat (path : String)
  /-- A call of `out.Chmod(mode)`. -/
  | chmod (path : String) (mode : Nat)
  /-- A call of `f.Close()` on the file opened at `path`. -/
  | close (path : String)
  /-- A call of `resp.Body.Close()`. -/
  | closeBody
  deriving DecidableEq, Repr

/-- The host the file-level functions run on. -/
structure Host where
  /-- The error each input/output step returns (`none`: it succeeds). -/
  result : FsOp → GoError
  /-- The mode a file gets that `os.Create` makes anew (0666 less the umask). -/
  createMode : Nat
  /-- The number of bytes an `io.Copy` that fails has written. -/
  shortWrite : Nat
  /-- The status code of the HTTP response. -/
  statusCode : Nat
  /-- The body of the HTTP response. -/
  body : List Nat

/-- The file system with its table of open handles. -/
structure Disk where
  /-- The file at each path, if any. -/
  files : String → Option File
  /-- The input/output steps performed, oldest first. -/
  ops : List FsOp
  /-- The handles that are open (files and response bodies). -/
  openHandles : List Nat
  /-- The next fresh handle. -/
  nextHandle : Nat

/-- Record one input/output step. -/
def Disk.log (d : Disk) (op : FsOp) : Disk :=
  { d with ops := d.ops ++ [op] }

/-- Put the file `f` at `path`. -/
def Disk.put (d : Disk) (path : String) (f : File) : Disk :=
  { d with files := fun p => if p = path then some f else d.files p }

/-- Open a fresh handle. -/
def Disk.alloc (d : Disk) : Disk × Nat :=
  ({ d with openHandles := d.nextHandle :: d.openHandles, nextHandle := d.nextHandle + 1 },
    d.nextHandle)

/-- Release a handle (releasing it twice is harmless). -/
def Disk.release (d : Disk) (fd : Nat) : Disk :=
  { d with openHandles := d.openHandles.filter (fun h => h != fd) }

/-- Call `os.Create(path)`: the file is created empty, or truncated when it
exists, and opened. -/
def osCreate (h : Host) (path : String) (d : Disk) : Disk × Except String OsFile :=
  let d := d.log (FsOp.create path)
  match h.result (FsOp.create path) with
  | some err => (d, Except.error err)
  | none =>
    let mode := match d.files path with
      | some f => f.mode
      | none => h.createMode
    let (d, fd) := (d.put path ⟨[], mode⟩).alloc
    (d, Except.ok ⟨fd, path⟩)

/-- Call `os.Open(path)`: it fails when the world says so and when there is no
file at `path`. -/
def osOpenRead (h : Host) (path : String) (d : Disk) : Disk × Except String OsFile :=
  let d := d.log (FsOp.openRead path)
  match h.result (FsOp.openRead path) with
  | some err => (d, Except.error err)
  | none =>
    match d.files path with
    | none => (d, Except.error ("open " ++ path ++ ": no such file or directory"))
    | some _ =>
      let (d, fd) := d.alloc
      (d, Except.ok ⟨fd, path⟩)

/-- Write `data` to the file behind `out`, which `os.Create` has just emptied:
all of it, or the first `shortWrite` bytes when the step `op` fails. -/
def writeAll (h : Host) (op : FsOp) (out : OsFile) (data : List Nat) (d : Disk) :
    Disk × GoError :=
  let d := d.log op
  let mode := match d.files out.path with
    | some f => f.mode
    | none => h.createMode
  match h.result op with
  | some err => (d.put out.path ⟨data.take h.shortWrite, mode⟩, some err)
  | none => (d.put out.path ⟨data, mode⟩, none)

/-- Call `io.Copy(out, in)` for two files. -/
def ioCopy (h : Host) (out inp : OsFile) (d : Disk) : Disk × GoError :=
  let data := match d.files inp.path with
    | some f => f.bytes
    | none => []
  writeAll h (FsOp.copy out.path inp.path) out data d

/-- Call `in.Stat()` and take `st.Mode()`. -/
def fileStat (h : Host) (f : OsFile) (d : Disk) : Disk × Except String Nat :=
  let d := d.log (FsOp.stat f.path)
  match h.result (FsOp.stat f.path) with
  | some err => (d, Except.error err)
  | none =>
    match d.files f.path with
    | none => (d, Except.error ("stat " ++ f.path ++ ": no such file or directory"))
    | some file => (d, Except.ok file.mode)

/-- Call `out.Chmod(mode)`. -/
def fileChmod (h : Host) (f : OsFile) (mode : Nat) (d : Disk) : Disk × GoError :=
  let d := d.log (FsOp.chmod f.path mode)
  match h.result (FsOp.chmod f.path mode) with
  | some err => (d, some err)
  | none =>
    match d.files f.path with
    | none => (d, some ("chmod " ++ f.path ++ ": no such file or directory"))
    | some file => (d.put f.path ⟨file.bytes, mode⟩, none)

/-- Call `f.Close()`: the handle is released whatever the call returns. -/
def fileClose (h : Host) (f : OsFile) (d : Disk) : Disk × GoError :=
  ((d.log (FsOp.close f.path)).release f.fd, h.result (FsOp.close f.path))

/-- A deferred `f.Close()` at function return: its result is dropped. -/
def deferredClose (h : Host) (f : OsFile) (d : Disk) : Disk :=
  (fileClose h f d).1

/-- Function `copyFile(dest, src)`. -/
def copyFile (h : Host) (dest src : String) (d : Disk) : Disk × GoError :=
  match osCreate h dest d with
  | (d, Except.error err) => (d, some err)
  | (d, Except.ok out) =>
    match osOpenRead h src d with
    | (d, Except.error err) => (deferredClose h out d, some err)
    | (d, Except.ok inp) =>
      match ioCopy h out inp d with
      | (d, some err) => (deferredClose h out (deferredClose h inp d), some err)
      | (d, none) =>
        match fileStat h inp d with
        | (d, Except.error err) => (deferredClose h out (deferredClose h inp d), some err)
        | (d, Except.ok st) =>
          match fileChmod h out st d with
          | (d, some err) => (deferredClose h out (deferredClose h inp d), some err)
          | (d, none) =>
            match fileClose h out d with
            | (d, err) => (deferredClose h out (deferredClose h inp d), err)

/-- An HTTP response: its status code, its body and the handle of the body. -/
structure Response where
  /-- Field `resp.StatusCode`. -/
  statusCode : Nat
  /-- The bytes `resp.Body` yields. -/
  body : List Nat
  /-- The handle of `resp.Body`. -/
  bodyFd : Nat
  deriving DecidableEq, Repr

/-- Call `http.Get(url)`: on success the response body is open. -/
def httpGet (h : Host) (url : String) (d : Disk) : Disk × Except String Response :=
  let d := d.log (FsOp.get url)
  match h.result (FsOp.get url) with
  | some err => (d, Except.error err)
  | none =>
    let (d, fd) := d.alloc
    (d, Except.ok ⟨h.statusCode, h.body, fd⟩)

/-- A deferred `resp.Body.Close()` at function return. -/
def deferredCloseBody (resp : Response) (d : Disk) : Disk :=
  (d.log FsOp.closeBody).release resp.bodyFd

/-- Function `downloadKernel()`. -/
def downloadKernel (h : Host) (d : Disk) : Disk × GoError :=
  match osCreate h (Base latest) d with
  | (d, Except.error err) => (d, some err)
  | (d, Except.ok out) =>
    match httpGet h latest d with
    | (d, Except.error err) => (deferredClose h out d, some err)
    | (d, Except.ok resp) =>
      if resp.statusCode ≠ 200 then
        (deferredClose h out (deferredCloseBody resp d),
          some ("unexpected HTTP status code for " ++ latest ++ ": got " ++
            toString resp.statusCode ++ ", want " ++ toString 200))
      else
        match writeAll h (FsOp.copyBody out.path) out resp.body d with
        | (d, some err) => (deferredClose h out (deferredCloseBody resp d), some err)
        | (d, none) =>
          match fileClose h out d with
          | (d, err) => (deferredClose h out (deferredCloseBody resp d), err)

/-- A host on which no step fails, whose response is `200` with body 7, 8, 9. -/
def quietHost : Host :=
  { result := fun _ => none, createMode := 420, shortWrite := 0, statusCode := 200,
    body := [7, 8, 9] }

/-- A disk with one file, `defconfig`, of three bytes and mode 0755, and a stale
output file `out` of two bytes. -/
def sampleDisk : Disk :=
  { files := fun p =>
      if p = "defconfig" then some ⟨[1, 2, 3], 493⟩
      else if p = "out" then some ⟨[4, 5], 384⟩ else none,
    ops := [], openHandles := [], nextHandle := 0 }

/-! ## Specification-level notions -/

/-- The steps of `l` up to and including the first one that fails; all of `l`
when none fails. -/
def throughFirstFailure (w : World) (l : List Action) : List Action :=
  l.takeWhile (fun a => (w.result a).isNone) ++
    (l.dropWhile (fun a => (w.result a).isNone)).take 1

/-- The first step of `l` that fails, if any. -/
def firstFailure (w : World) (l : List Action) : Option Action :=
  l.find? (fun a => (w.result a).isSome)

/-- The steps of the patch loop over the patch list `ps`: each patch file is
opened, then given to `patch -p1`. -/
def patchSteps (srcdir : String) (ps : List String) : List Action :=
  ps.flatMap (fun p => [Action.openFile p, Action.run (patchCmd srcdir p)])

/-- The patch list the directory of the world gives. -/
def discovered (w : World) : List String :=
  match Glob w.dirNames "*.patch" with
  | Except.ok ps => ps
  | Except.error _ => []

/-- The defconfig copy of `main`. -/
def configCopy : Action :=
  Action.copyFile (srcdir ++ "/arch/arm64/configs/gooniebox_defconfig") "defconfig"

/-- The three invocations of `compile`, in program order. -/
def compileSteps (w : World) : List Action :=
  [Action.run defconfigCmd, Action.run (makeCmd w), Action.run (modulesInstallCmd w)]

/-- The six artifact copies of `main`, in program order. -/
def artifactCopies : List Action :=
  [Action.copyFile "/tmp/buildresult/vmlinuz" "arch/arm64/boot/Image",
   Action.copyFile "/tmp/buildresult/bcm2710-rpi-3-b.dtb"
     "arch/arm64/boot/dts/broadcom/bcm2710-rpi-3-b.dtb",
   Action.copyFile "/tmp/buildresult/bcm2710-rpi-3-b-plus.dtb"
     "arch/arm64/boot/dts/broadcom/bcm2710-rpi-3-b-plus.dtb",
   Action.copyFile "/tmp/buildresult/bcm2710-rpi-cm3.dtb"
     "arch/arm64/boot/dts/broadcom/bcm2710-rpi-cm3.dtb",
   Action.copyFile "/tmp/buildresult/bcm2711-rpi-4-b.dtb"
     "arch/arm64/boot/dts/broadcom/bcm2711-rpi-4-b.dtb",
   Action.copyFile "/tmp/buildresult/bcm2710-rpi-zero-2-w.dtb"
     "arch/arm64/boot/dts/broadcom/bcm2710-rpi-zero-2-w.dtb"]

/-- The fixed sequence of external steps of a run. -/
def pipeline (w : World) : List Action :=
  [Action.download, Action.run untarCmd, configCopy] ++ patchSteps srcdir (discovered w) ++
    [Action.chdir srcdir] ++ compileSteps w ++ artifactCopies

/-- The text put in front of the error of a failing step in the fatal message. -/
def fatalContext (w : World) (a : Action) : String :=
  if a = Action.run untarCmd then "untar: "
  else if a = Action.run defconfigCmd then "make defconfig: "
  else if a = Action.run (makeCmd w) ∨ a = Action.run (modulesInstallCmd w) then "make: "
  else ""

/-- The fatal message of a run over the steps `l`: the error of the first
failing step behind its context; none when no step fails. -/
def fatalOf (w : World) (l : List Action) : Option String :=
  (firstFailure w l).bind (fun a => (w.result a).map (fun e => fatalContext w a ++ e))

/-- A world in which nothing fails: four processing units, an empty ambient
environment and an empty invocation directory. -/
def quietWorld : World :=
  { result := fun _ => none, environ := [], numCPU := 4, dirNames := [] }

/-- The quiet world, but the step `a` fails with the error `e`. -/
def failingAt (a : Action) (e : String) : World :=
  { quietWorld with result := fun b => if b = a then some e else none }

/-- The files that the steps `l` open successfully. -/
def openedFiles (w : World) (l : List Action) : List String :=
  l.filterMap (fun a =>
    match a with
    | Action.openFile p => if w.result a = none then some p else none
    | _ => none)

/-- The commands run among the steps `l`, in order. -/
def invocations (l : List Action) : List Cmd :=
  l.filterMap (fun a =>
    match a with
    | Action.run c => some c
    | _ => none)

/-- The patch `p` goes through: it can be opened and `patch -p1` accepts it. -/
def patchOk (w : World) (srcdir p : String) : Bool :=
  (w.result (Action.openFile p)).isNone && (w.result (Action.run (patchCmd srcdir p))).isNone

/-- The invocations as the specification words them: one for each patch of `ps`
in list order, up to and including the first patch that fails. -/
def claimedInvocations (w : World) (srcdir : String) (ps : List String) : List Cmd :=
  (ps.takeWhile (patchOk w srcdir) ++ (ps.dropWhile (patchOk w srcdir)).take 1).map
    (patchCmd srcdir)

/-- A world whose invocation directory holds one patch file that cannot be
opened; nothing else fails. -/
def unreadablePatchWorld : World :=
  { result := fun a =>
      if a = Action.openFile "0001-fix.patch" then
        some "open 0001-fix.patch: permission denied"
      else none,
    environ := [], numCPU := 4, dirNames := ["0001-fix.patch"] }

/-- The environment a command runs with: its `Env`, or the ambient environment
when `Env` is nil. -/
def effectiveEnv (w : World) (c : Cmd) : List String :=
  match c.env with
  | some env => env
  | none => w.environ

/-- The ToolchainEnvironment as the specification words it: the ambient
environment extended with the five build variables. -/
def toolchainEnvironment (w : World) : List String :=
  w.environ ++ ["ARCH=arm64", "CROSS_COMPILE=aarch64-linux-gnu-", "KBUILD_BUILD_USER=gokrazy",
    "KBUILD_BUILD_HOST=docker", "KBUILD_BUILD_TIMESTAMP=Wed Mar  1 20:57:29 UTC 2017"]

/-- A host whose HTTP response has status 404; no step fails. -/
def notFoundHost : Host :=
  { quietHost with statusCode := 404 }

/-- The sample disk with two handles already open. -/
def busyDisk : Disk :=
  { sampleDisk with openHandles := [2, 0], nextHandle := 3 }

/-- A process with one handle already open. -/
def busyProc : Proc := ⟨[], [1], 2⟩

/-- A world whose invocation directory holds two patch files, read in reverse
order, and an unrelated file; the second patch is rejected by `patch`. -/
def rejectedPatchWorld : World :=
  { result := fun a =>
      if a = Action.run (patchCmd "linux" "0002-b.patch") then some "exit status 1" else none,
    environ := [], numCPU := 4, dirNames := ["0002-b.patch", "README", "0001-a.patch"] }

/-! # Theorems -/

theorem throughFirstFailure_nil (w : World) : throughFirstFailure w [] = [] := by
  simp [throughFirstFailure]

theorem throughFirstFailure_cons_ok (w : World) (a : Action) (l : List Action)
    (h : w.result a = none) :
    throughFirstFailure w (a :: l) = a :: throughFirstFailure w l := by
  simp [throughFirstFailure, h]

theorem throughFirstFailure_cons_fail (w : World) (a : Action) (l : List Action) (e : String)
    (h : w.result a = some e) :
    throughFirstFailure w (a :: l) = [a] := by
  simp [throughFirstFailure, h]

theorem firstFailure_cons_ok (w : World) (a : Action) (l : List Action)
    (h : w.result a = none) :
    firstFailure w (a :: l) = firstFailure w l := by
  simp [firstFailure, h]

theorem firstFailure_cons_fail (w : World) (a : Action) (l : List Action) (e : String)
    (h : w.result a = some e) :
    firstFailure w (a :: l) = some a := by
  simp [firstFailure, h]

theorem closeFile_trace (f : Nat) (s : Proc) : (closeFile f s).trace = s.trace := rfl

theorem runDeferred_trace (d : List Nat) (s : Proc) : (runDeferred d s).trace = s.trace := by
  induction d generalizing s with
  | nil => rfl
  | cons f d ih => simp [runDeferred, List.foldl] at ih ⊢; rw [ih]; rfl


theorem throughFirstFailure_append (w : World) (l r : List Action) :
    throughFirstFailure w (l ++ r) =
      if firstFailure w l = none then l ++ throughFirstFailure w r
      else throughFirstFailure w l := by
  induction l with
  | nil => simp [firstFailure, throughFirstFailure_nil]
  | cons a l ih =>
    cases h : w.result a with
    | none =>
      rw [List.cons_append, throughFirstFailure_cons_ok w a _ h, ih,
        firstFailure_cons_ok w a l h, throughFirstFailure_cons_ok w a l h]
      split <;> simp
    | some e =>
      rw [List.cons_append, throughFirstFailure_cons_fail w a _ e h,
        firstFailure_cons_fail w a l e h, throughFirstFailure_cons_fail w a l e h]
      simp

theorem patchSteps_cons (sd p : String) (ps : List String) :
    patchSteps sd (p :: ps) =
      Action.openFile p :: Action.run (patchCmd sd p) :: patchSteps sd ps := by
  simp [patchSteps]

theorem applyPatchesLoop_spec (w : World) (sd : String) (ps : List String) :
    ∀ (d : List Nat) (s : Proc),
      (applyPatchesLoop w sd ps d s).1.trace = s.trace ++ throughFirstFailure w (patchSteps sd ps) ∧
      (applyPatchesLoop w sd ps d s).2 = (firstFailure w (patchSteps sd ps)).bind w.result := by
  induction ps with
  | nil =>
    intro d s
    simp [applyPatchesLoop, patchSteps, throughFirstFailure_nil, firstFailure, runDeferred_trace]
  | cons p ps ih =>
    intro d s
    rw [patchSteps_cons]
    cases ho : w.result (Action.openFile p) with
    | some e =>
      simp [applyPatchesLoop, osOpen, perform, ho, runDeferred_trace,
        throughFirstFailure_cons_fail w _ _ e ho, firstFailure_cons_fail w _ _ e ho]
    | none =>
      cases hr : w.result (Action.run (patchCmd sd p)) with
      | some e =>
        simp [applyPatchesLoop, osOpen, perform, ho, hr, runDeferred_trace,
          throughFirstFailure_cons_ok w _ _ ho, firstFailure_cons_ok w _ _ ho,
          throughFirstFailure_cons_fail w _ _ e hr, firstFailure_cons_fail w _ _ e hr]
      | none =>
        simp [applyPatchesLoop, osOpen, perform, ho, hr,
          throughFirstFailure_cons_ok w _ _ ho, firstFailure_cons_ok w _ _ ho,
          throughFirstFailure_cons_ok w _ _ hr, firstFailure_cons_ok w _ _ hr, ih, closeFile_trace]


theorem throughFirstFailure_cons (w : World) (a : Action) (l : List Action) :
    throughFirstFailure w (a :: l) =
      if w.result a = none then a :: throughFirstFailure w l else [a] := by
  cases h : w.result a with
  | none => simp [throughFirstFailure_cons_ok w a l h]
  | some e => simp [throughFirstFailure_cons_fail w a l e h]

theorem fatalOf_nil (w : World) : fatalOf w [] = none := by
  simp [fatalOf, firstFailure]

theorem fatalOf_cons (w : World) (a : Action) (l : List Action) :
    fatalOf w (a :: l) =
      match w.result a with
      | none => fatalOf w l
      | some e => some (fatalContext w a ++ e) := by
  cases h : w.result a with
  | none => simp [fatalOf, firstFailure_cons_ok w a l h]
  | some e => simp [fatalOf, firstFailure_cons_fail w a l e h, h]

theorem fatalOf_append (w : World) (l r : List Action) :
    fatalOf w (l ++ r) = if firstFailure w l = none then fatalOf w r else fatalOf w l := by
  unfold fatalOf firstFailure
  rw [List.find?_append]
  cases h : List.find? (fun a => (w.result a).isSome) l <;> simp

theorem fatalContext_untar (w : World) : fatalContext w (Action.run untarCmd) = "untar: " := by
  simp [fatalContext]

theorem fatalContext_defconfig (w : World) :
    fatalContext w (Action.run defconfigCmd) = "make defconfig: " := by
  simp [fatalContext, defconfigCmd, untarCmd]

theorem fatalContext_make (w : World) :
    fatalContext w (Action.run (makeCmd w)) = "make: " := by
  simp [fatalContext, defconfigCmd, untarCmd, makeCmd]

theorem fatalContext_modulesInstall (w : World) :
    fatalContext w (Action.run (modulesInstallCmd w)) = "make: " := by
  simp [fatalContext, defconfigCmd, untarCmd, modulesInstallCmd]

theorem fatalContext_other (w : World) (a : Action) (h : ∀ c, a ≠ Action.run c) :
    fatalContext w a = "" := by
  simp [fatalContext, h]

theorem fatalContext_patch (w : World) (sd p : String) :
    fatalContext w (Action.run (patchCmd sd p)) = "" := by
  simp [fatalContext, defconfigCmd, untarCmd, makeCmd, modulesInstallCmd, patchCmd]

theorem compile_spec (w : World) (s : Proc) :
    (compile w s).1.trace = s.trace ++ throughFirstFailure w (compileSteps w) ∧
    (compile w s).2 = fatalOf w (compileSteps w) := by
  unfold compile compileSteps
  simp only [perform, throughFirstFailure_cons, fatalOf_cons, throughFirstFailure_nil, fatalOf_nil,
    fatalContext_defconfig, fatalContext_make, fatalContext_modulesInstall]
  cases h1 : w.result (Action.run defconfigCmd) <;> simp
  cases h2 : w.result (Action.run (makeCmd w)) <;> simp
  cases h3 : w.result (Action.run (modulesInstallCmd w)) <;> simp

theorem empty_append_str (e : String) : "" ++ e = e := by
  apply String.ext
  simp [String.data_append]

theorem fatalContext_patchSteps (w : World) (sd : String) (ps : List String) (a : Action)
    (h : a ∈ patchSteps sd ps) : fatalContext w a = "" := by
  simp only [patchSteps, List.mem_flatMap, List.mem_cons, List.mem_singleton,
    List.not_mem_nil, or_false] at h
  obtain ⟨p, _, hp | hp⟩ := h
  · subst hp; exact fatalContext_other w _ (by intro c; simp)
  · subst hp; exact fatalContext_patch w sd p

theorem fatalOf_patchSteps (w : World) (sd : String) (ps : List String) :
    fatalOf w (patchSteps sd ps) = (firstFailure w (patchSteps sd ps)).bind w.result := by
  unfold fatalOf
  cases h : firstFailure w (patchSteps sd ps) with
  | none => rfl
  | some a =>
    have hm : a ∈ patchSteps sd ps := List.mem_of_find?_eq_some h
    simp only [Option.bind]
    rw [fatalContext_patchSteps w sd ps a hm]
    cases w.result a <;> simp [empty_append_str]

theorem firstFailure_eq_none_iff (w : World) (l : List Action) :
    firstFailure w l = none ↔ ∀ a ∈ l, w.result a = none := by
  simp [firstFailure]

theorem fatalOf_eq_none_iff (w : World) (l : List Action) :
    fatalOf w l = none ↔ firstFailure w l = none := by
  unfold fatalOf
  cases h : firstFailure w l with
  | none => simp
  | some a =>
    have := List.find?_some h
    cases hr : w.result a with
    | none => simp [hr] at this
    | some e => simp [hr]

theorem applyPatches_spec (w : World) (s : Proc) (sd : String) :
    (applyPatches w sd s).1.trace = s.trace ++ throughFirstFailure w (patchSteps sd (discovered w)) ∧
    (applyPatches w sd s).2 = fatalOf w (patchSteps sd (discovered w)) := by
  rw [fatalOf_patchSteps]
  simp only [applyPatches, discovered, Glob]
  exact applyPatchesLoop_spec w sd _ [] s

theorem throughFirstFailure_of_none (w : World) (l : List Action)
    (h : firstFailure w l = none) : throughFirstFailure w l = l := by
  have := throughFirstFailure_append w l []
  simpa [h, throughFirstFailure_nil] using this

theorem main_spec (w : World) (s : Proc) :
    (main w s).1.trace = s.trace ++ throughFirstFailure w (pipeline w) ∧
    (main w s).2 = fatalOf w (pipeline w) := by
  unfold main pipeline
  simp only [perform, List.cons_append, List.nil_append, List.append_assoc,
    throughFirstFailure_cons, fatalOf_cons]
  cases h1 : w.result Action.download
  case some e => simp [fatalContext_other]
  cases h2 : w.result (Action.run untarCmd)
  case some e => simp [fatalContext_untar]
  cases h3 : w.result
    (Action.copyFile (srcdir ++ "/arch/arm64/configs/gooniebox_defconfig") "defconfig")
  case some e => simp [fatalContext_other, configCopy, h3]
  simp only [configCopy, h3, if_true]
  rw [throughFirstFailure_append, fatalOf_append]
  obtain ⟨hpt, hpe⟩ := applyPatches_spec w
    { s with trace := s.trace ++ [Action.download] ++ [Action.run untarCmd] ++
        [Action.copyFile (srcdir ++ "/arch/arm64/configs/gooniebox_defconfig") "defconfig"] } srcdir
  generalize applyPatches w srcdir _ = r at hpt hpe
  obtain ⟨s1, e1⟩ := r
  simp only at hpt hpe
  subst hpe
  cases hp : fatalOf w (patchSteps srcdir (discovered w))
  case some e =>
    have hne : ¬ firstFailure w (patchSteps srcdir (discovered w)) = none := by
      rw [← fatalOf_eq_none_iff, hp]; simp
    simp [hne, hpt, hp]
  have hnone : firstFailure w (patchSteps srcdir (discovered w)) = none := by
    rw [← fatalOf_eq_none_iff, hp]
  have hall := (firstFailure_eq_none_iff w _).1 hnone
  have htff := throughFirstFailure_of_none w _ hnone
  simp only [hnone, if_true, List.cons_append, List.nil_append, throughFirstFailure_cons,
    fatalOf_cons]
  cases h5 : w.result (Action.chdir srcdir)
  case some e => simp [fatalContext_other, hpt, htff]
  simp only [if_true]
  rw [throughFirstFailure_append, fatalOf_append]
  obtain ⟨hct, hce⟩ := compile_spec w
    { s1 with trace := s1.trace ++ [Action.chdir srcdir] }
  generalize compile w _ = r at hct hce
  obtain ⟨s2, e2⟩ := r
  simp only at hct hce
  subst hce
  cases hc : fatalOf w (compileSteps w)
  case some e =>
    have hne : ¬ firstFailure w (compileSteps w) = none := by
      rw [← fatalOf_eq_none_iff, hc]; simp
    simp [hne, hpt, hc, hct, htff]
  have hcnone : firstFailure w (compileSteps w) = none := by
    rw [← fatalOf_eq_none_iff, hc]
  have hctff := throughFirstFailure_of_none w _ hcnone
  simp only [hcnone, if_true, artifactCopies, throughFirstFailure_cons, fatalOf_cons,
    throughFirstFailure_nil, fatalOf_nil]
  cases h6 : w.result (Action.copyFile "/tmp/buildresult/vmlinuz" "arch/arm64/boot/Image")
  case some e => simp [fatalContext_other, hpt, htff, hct, hctff]
  cases h7 : w.result (Action.copyFile "/tmp/buildresult/bcm2710-rpi-3-b.dtb"
      "arch/arm64/boot/dts/broadcom/bcm2710-rpi-3-b.dtb")
  case some e => simp [fatalContext_other, hpt, htff, hct, hctff]
  cases h8 : w.result (Action.copyFile "/tmp/buildresult/bcm2710-rpi-3-b-plus.dtb"
      "arch/arm64/boot/dts/broadcom/bcm2710-rpi-3-b-plus.dtb")
  case some e => simp [fatalContext_other, hpt, htff, hct, hctff]
  cases h9 : w.result (Action.copyFile "/tmp/buildresult/bcm2710-rpi-cm3.dtb"
      "arch/arm64/boot/dts/broadcom/bcm2710-rpi-cm3.dtb")
  case some e => simp [fatalContext_other, hpt, htff, hct, hctff]
  cases h10 : w.result (Action.copyFile "/tmp/buildresult/bcm2711-rpi-4-b.dtb"
      "arch/arm64/boot/dts/broadcom/bcm2711-rpi-4-b.dtb")
  case some e => simp [fatalContext_other, hpt, htff, hct, hctff]
  cases h11 : w.result (Action.copyFile "/tmp/buildresult/bcm2710-rpi-zero-2-w.dtb"
      "arch/arm64/boot/dts/broadcom/bcm2710-rpi-zero-2-w.dtb")
  case some e => simp [fatalContext_other, hpt, htff, hct, hctff]
  simp [hpt, htff, hct, hctff]

theorem throughFirstFailure_subset (w : World) (l : List Action) :
    ∀ a ∈ throughFirstFailure w l, a ∈ l := by
  intro a ha
  simp only [throughFirstFailure, List.mem_append] at ha
  rcases ha with h | h
  · exact (List.takeWhile_sublist _).subset h
  · exact (List.dropWhile_sublist _).subset ((List.take_sublist _ _).subset h)

theorem fatalOf_isSome_iff (w : World) (l : List Action) :
    (fatalOf w l).isSome ↔ ∃ a ∈ throughFirstFailure w l, (w.result a).isSome := by
  induction l with
  | nil => simp [fatalOf_nil, throughFirstFailure_nil]
  | cons b l ih =>
    rw [fatalOf_cons, throughFirstFailure_cons]
    cases h : w.result b with
    | none => simp [ih, h]
    | some e => simp [h]



/-- Claim C1: with every external step of `main` a step that succeeds or fails
(download, `tar xf`, the defconfig copy, for each patch the opening of its file
and its `patch -p1` invocation, chdir, the three `make` invocations, the six
artifact copies), the trace of a run is, for every assignment of outcomes,
exactly the part of this fixed sequence up to and including the first failing
step (all of it when none fails), and the run is fatal iff a step of the trace
failed; if a compile invocation fails no artifact copy is attempted, and if the
download fails `tar` is not invoked. -/
theorem main_trace_through_first_failure (w : World) (s : Proc) :
    (main w s).1.trace = s.trace ++ throughFirstFailure w (pipeline w) ∧
    ((main w s).2.isSome ↔ ∃ a ∈ throughFirstFailure w (pipeline w), (w.result a).isSome) ∧
    ((∃ a ∈ compileSteps w, (w.result a).isSome) →
      ∀ c ∈ artifactCopies, c ∉ throughFirstFailure w (pipeline w)) ∧
    ((w.result Action.download).isSome →
      Action.run untarCmd ∉ throughFirstFailure w (pipeline w)) := by
  obtain ⟨ht, he⟩ := main_spec w s
  refine ⟨ht, ?_, ?_, ?_⟩
  · rw [he]; exact fatalOf_isSome_iff w _
  · rintro ⟨a, hac, hfa⟩ c hc hmem
    have hsplit : pipeline w =
        ([Action.download, Action.run untarCmd, configCopy] ++ patchSteps srcdir (discovered w) ++
          [Action.chdir srcdir] ++ compileSteps w) ++ artifactCopies := rfl
    rw [hsplit, throughFirstFailure_append] at hmem
    have hne : ¬ firstFailure w ([Action.download, Action.run untarCmd, configCopy] ++
        patchSteps srcdir (discovered w) ++ [Action.chdir srcdir] ++ compileSteps w) = none := by
      rw [firstFailure_eq_none_iff]
      intro hall
      have := hall a (by simp [hac])
      simp [this] at hfa
    rw [if_neg hne] at hmem
    have hin := throughFirstFailure_subset w _ c hmem
    simp only [artifactCopies, List.mem_cons, List.mem_singleton, List.not_mem_nil,
      or_false] at hc
    simp only [List.mem_append, List.mem_cons, List.mem_singleton, List.not_mem_nil, or_false,
      compileSteps, patchSteps, List.mem_flatMap, configCopy] at hin
    rcases hc with rfl | rfl | rfl | rfl | rfl | rfl <;> simp at hin
  · intro hd hmem
    have hsplit : pipeline w = Action.download :: ([Action.run untarCmd, configCopy] ++
        patchSteps srcdir (discovered w) ++ [Action.chdir srcdir] ++ compileSteps w ++
        artifactCopies) := rfl
    rw [hsplit, throughFirstFailure_cons] at hmem
    cases h : w.result Action.download with
    | none => simp [h] at hd
    | some e => simp [h] at hmem

/-! ## copyFile over the file system -/

theorem copyFile_preserves_aux (h : Host) (d : Disk) (dest src : String) (f : File)
    (hsrc : d.files src = some f) (hne : dest ≠ src)
    (hok : (copyFile h dest src d).2 = none) :
    (copyFile h dest src d).1.files dest = some ⟨f.bytes, f.mode⟩ ∧
    (copyFile h dest src d).1.files src = some f := by
  have hne2 : src ≠ dest := fun e => hne e.symm
  unfold copyFile at hok ⊢
  cases h1 : h.result (FsOp.create dest) with
  | some e => simp [osCreate, h1] at hok
  | none =>
  cases h2 : h.result (FsOp.openRead src) with
  | some e => simp [osCreate, osOpenRead, h1, h2, Disk.alloc, Disk.put, Disk.log] at hok
  | none =>
  cases h3 : h.result (FsOp.copy dest src) with
  | some e =>
    simp [osCreate, osOpenRead, ioCopy, writeAll, h1, h2, h3, Disk.alloc, Disk.put, Disk.log,
      hsrc, hne2] at hok
  | none =>
  cases h4 : h.result (FsOp.stat src) with
  | some e =>
    simp [osCreate, osOpenRead, ioCopy, writeAll, fileStat, h1, h2, h3, h4, Disk.alloc, Disk.put,
      Disk.log, hsrc, hne2] at hok
  | none =>
  cases h5 : h.result (FsOp.chmod dest f.mode) with
  | some e =>
    simp [osCreate, osOpenRead, ioCopy, writeAll, fileStat, fileChmod, h1, h2, h3, h4, h5,
      Disk.alloc, Disk.put, Disk.log, hsrc, hne2] at hok
  | none =>
    simp [osCreate, osOpenRead, ioCopy, writeAll, fileStat, fileChmod, fileClose, deferredClose,
      h1, h2, h3, h4, h5, Disk.alloc, Disk.put, Disk.log, Disk.release, hsrc, hne2, hne]

theorem pipeline_copies_distinct (w : World) (dest src : String)
    (hmem : Action.copyFile dest src ∈ pipeline w) : dest ≠ src := by
  have hcfg : srcdir ++ "/arch/arm64/configs/gooniebox_defconfig" ≠ "defconfig" := by
    decide
  simp only [pipeline, List.mem_append, List.mem_cons, List.mem_singleton, List.not_mem_nil,
    or_false, compileSteps, patchSteps, List.mem_flatMap, configCopy, artifactCopies,
    Action.copyFile.injEq] at hmem
  rcases hmem with ((((h | h | h) | h) | h) | h) | h
  · cases h
  · cases h
  · rw [h.1, h.2]; exact hcfg
  · obtain ⟨p, _, hp | hp⟩ := h <;> cases hp
  · cases h
  · rcases h with h | h | h <;> cases h
  · rcases h with h | h | h | h | h | h <;> (rw [h.1, h.2]; decide)

theorem copyFile_ops (h : Host) (d : Disk) (dest src : String) :
    (∃ rest, (copyFile h dest src d).1.ops = d.ops ++ FsOp.create dest :: rest) ∧
    (h.result (FsOp.create dest) ≠ none →
      (copyFile h dest src d).1.ops = d.ops ++ [FsOp.create dest]) ∧
    (h.result (FsOp.create dest) = none →
      (∃ rest, (copyFile h dest src d).1.ops =
        d.ops ++ FsOp.create dest :: FsOp.openRead src :: rest) ∧
      (h.result (FsOp.openRead src) ≠ none →
        (copyFile h dest src d).2 = h.result (FsOp.openRead src) ∧
        ∃ m, (copyFile h dest src d).1.files dest = some ⟨[], m⟩)) ∧
    ((copyFile h dest src d).2 = none →
      ∃ m, (copyFile h dest src d).1.ops = d.ops ++
        [FsOp.create dest, FsOp.openRead src, FsOp.copy dest src, FsOp.stat src,
          FsOp.chmod dest m, FsOp.close dest, FsOp.close src, FsOp.close dest]) := by
  cases h1 : h.result (FsOp.create dest) with
  | some e => simp [copyFile, osCreate, h1, Disk.log]
  | none =>
  cases h2 : h.result (FsOp.openRead src) with
  | some e =>
    simp [copyFile, osCreate, osOpenRead, h1, h2, Disk.log, Disk.put, Disk.alloc, deferredClose,
      fileClose, Disk.release]
  | none =>
  cases hf : ((d.log (FsOp.create dest)).put dest
      ⟨[], match (d.log (FsOp.create dest)).files dest with
        | some f => f.mode
        | none => h.createMode⟩).files src with
  | none =>
    simp only [Disk.log, Disk.put] at hf
    simp [copyFile, osCreate, osOpenRead, h1, h2, Disk.log, Disk.put, Disk.alloc, deferredClose,
      fileClose, Disk.release, hf]
  | some f =>
    simp only [Disk.log, Disk.put] at hf
    cases h3 : h.result (FsOp.copy dest src) with
    | some e =>
      simp [copyFile, osCreate, osOpenRead, ioCopy, writeAll, h1, h2, h3, Disk.log, Disk.put,
        Disk.alloc, deferredClose, fileClose, Disk.release, hf]
    | none =>
    cases h4 : h.result (FsOp.stat src) with
    | some e =>
      simp [copyFile, osCreate, osOpenRead, ioCopy, writeAll, fileStat, h1, h2, h3, h4, Disk.log,
        Disk.put, Disk.alloc, deferredClose, fileClose, Disk.release, hf]
    | none =>
    by_cases hsd : src = dest
    · subst hsd
      simp only [if_true, Option.some.injEq] at hf
      subst hf
      cases h5 : h.result (FsOp.chmod src (match d.files src with
          | some f => f.mode
          | none => h.createMode)) with
      | some e =>
        simp [copyFile, osCreate, osOpenRead, ioCopy, writeAll, fileStat, fileChmod, h1, h2, h3,
          h4, h5, Disk.log, Disk.put, Disk.alloc, deferredClose, fileClose, Disk.release]
      | none =>
        simp [copyFile, osCreate, osOpenRead, ioCopy, writeAll, fileStat, fileChmod, h1, h2, h3,
          h4, h5, Disk.log, Disk.put, Disk.alloc, deferredClose, fileClose, Disk.release]
    · simp only [hsd, if_false] at hf
      cases h5 : h.result (FsOp.chmod dest f.mode) with
      | some e =>
        simp [copyFile, osCreate, osOpenRead, ioCopy, writeAll, fileStat, fileChmod, h1, h2, h3,
          h4, h5, Disk.log, Disk.put, Disk.alloc, deferredClose, fileClose, Disk.release, hf, hsd]
      | none =>
        simp [copyFile, osCreate, osOpenRead, ioCopy, writeAll, fileStat, fileChmod, h1, h2, h3,
          h4, h5, Disk.log, Disk.put, Disk.alloc, deferredClose, fileClose, Disk.release, hf, hsd]

/-! ## downloadKernel -/

theorem downloadKernel_status_aux (h : Host) (d : Disk)
    (hc : h.result (FsOp.create (Base latest)) = none)
    (hg : h.result (FsOp.get latest) = none) :
    (h.statusCode ≠ 200 →
      (downloadKernel h d).2 = some ("unexpected HTTP status code for " ++ latest ++ ": got " ++
        toString h.statusCode ++ ", want 200") ∧
      (∃ m, (downloadKernel h d).1.files (Base latest) = some ⟨[], m⟩) ∧
      (downloadKernel h d).1.ops = d.ops ++ [FsOp.create (Base latest), FsOp.get latest,
        FsOp.closeBody, FsOp.close (Base latest)]) ∧
    (h.statusCode = 200 → h.result (FsOp.copyBody (Base latest)) = none →
      h.result (FsOp.close (Base latest)) = none →
      (downloadKernel h d).2 = none ∧
      (∃ m, (downloadKernel h d).1.files (Base latest) = some ⟨h.body, m⟩) ∧
      (downloadKernel h d).1.ops = d.ops ++ [FsOp.create (Base latest), FsOp.get latest,
        FsOp.copyBody (Base latest), FsOp.close (Base latest), FsOp.closeBody,
        FsOp.close (Base latest)]) := by
  have h200 : toString 200 = "200" := by decide
  constructor
  · intro hs
    simp [downloadKernel, osCreate, httpGet, hc, hg, hs, Disk.log, Disk.put, Disk.alloc,
      deferredClose, deferredCloseBody, fileClose, Disk.release, h200]
    rw [String.append_assoc _ ", want " "200"]
    rfl
  · intro hs hcp hcl
    simp [downloadKernel, osCreate, httpGet, writeAll, hc, hg, hs, hcp, hcl, Disk.log, Disk.put,
      Disk.alloc, deferredClose, deferredCloseBody, fileClose, Disk.release]

/-! ## Open handles -/

theorem filter_ne_cons_self (n : Nat) (l : List Nat) (hn : n ∉ l) :
    (n :: l).filter (fun x => x != n) = l := by
  simp only [List.filter_cons, bne_self_eq_false, Bool.false_eq_true, if_false]
  rw [List.filter_eq_self]
  intro a ha
  simp only [bne_iff_ne, ne_eq]
  rintro rfl
  exact hn ha

theorem filter_ne_of_not_mem (n : Nat) (l : List Nat) (hn : n ∉ l) :
    l.filter (fun x => x != n) = l := by
  rw [List.filter_eq_self]
  intro a ha
  simp only [bne_iff_ne, ne_eq]
  rintro rfl
  exact hn ha

theorem copyFile_handles (h : Host) (d : Disk) (dest src : String)
    (hd : ∀ fd ∈ d.openHandles, fd < d.nextHandle) :
    (copyFile h dest src d).1.openHandles = d.openHandles := by
  have hn : d.nextHandle ∉ d.openHandles := fun hm => Nat.lt_irrefl _ (hd _ hm)
  have hn1 : d.nextHandle + 1 ∉ d.openHandles := fun hm => by
    have := hd _ hm; omega
  have e2 := filter_ne_of_not_mem _ _ hn
  have e3 := filter_ne_of_not_mem _ _ hn1
  cases h1 : h.result (FsOp.create dest) with
  | some e => simp [copyFile, osCreate, h1, Disk.log]
  | none =>
  cases h2 : h.result (FsOp.openRead src) with
  | some e =>
    simp [copyFile, osCreate, osOpenRead, h1, h2, Disk.log, Disk.put, Disk.alloc, deferredClose,
      fileClose, Disk.release, List.filter_cons, e2]
  | none =>
  cases hf : ((d.log (FsOp.create dest)).put dest
      ⟨[], match (d.log (FsOp.create dest)).files dest with
        | some f => f.mode
        | none => h.createMode⟩).files src with
  | none =>
    simp only [Disk.log, Disk.put] at hf
    simp [copyFile, osCreate, osOpenRead, h1, h2, Disk.log, Disk.put, Disk.alloc, deferredClose,
      fileClose, Disk.release, hf, List.filter_cons, e2]
  | some f =>
    simp only [Disk.log, Disk.put] at hf
    cases h3 : h.result (FsOp.copy dest src) with
    | some e =>
      simp [copyFile, osCreate, osOpenRead, ioCopy, writeAll, h1, h2, h3, Disk.log, Disk.put,
        Disk.alloc, deferredClose, fileClose, Disk.release, hf, List.filter_cons, e2, e3]
    | none =>
    cases h4 : h.result (FsOp.stat src) with
    | some e =>
      simp [copyFile, osCreate, osOpenRead, ioCopy, writeAll, fileStat, h1, h2, h3, h4, Disk.log,
        Disk.put, Disk.alloc, deferredClose, fileClose, Disk.release, hf, List.filter_cons, e2, e3]
    | none =>
    by_cases hsd : src = dest
    · subst hsd
      simp only [if_true, Option.some.injEq] at hf
      subst hf
      cases h5 : h.result (FsOp.chmod src (match d.files src with
          | some f => f.mode
          | none => h.createMode)) with
      | some e =>
        simp [copyFile, osCreate, osOpenRead, ioCopy, writeAll, fileStat, fileChmod, h1, h2, h3,
          h4, h5, Disk.log, Disk.put, Disk.alloc, deferredClose, fileClose, Disk.release,
          List.filter_cons, e2, e3]
      | none =>
        simp [copyFile, osCreate, osOpenRead, ioCopy, writeAll, fileStat, fileChmod, h1, h2, h3,
          h4, h5, Disk.log, Disk.put, Disk.alloc, deferredClose, fileClose, Disk.release,
          List.filter_cons, e2, e3]
    · simp only [hsd, if_false] at hf
      cases h5 : h.result (FsOp.chmod dest f.mode) with
      | some e =>
        simp [copyFile, osCreate, osOpenRead, ioCopy, writeAll, fileStat, fileChmod, h1, h2, h3,
          h4, h5, Disk.log, Disk.put, Disk.alloc, deferredClose, fileClose, Disk.release, hf, hsd,
          List.filter_cons, e2, e3]
      | none =>
        simp [copyFile, osCreate, osOpenRead, ioCopy, writeAll, fileStat, fileChmod, h1, h2, h3,
          h4, h5, Disk.log, Disk.put, Disk.alloc, deferredClose, fileClose, Disk.release, hf, hsd,
          List.filter_cons, e2, e3]

theorem downloadKernel_handles (h : Host) (d : Disk)
    (hd : ∀ fd ∈ d.openHandles, fd < d.nextHandle) :
    (downloadKernel h d).1.openHandles = d.openHandles := by
  have hn : d.nextHandle ∉ d.openHandles := fun hm => Nat.lt_irrefl _ (hd _ hm)
  have hn1 : d.nextHandle + 1 ∉ d.openHandles := fun hm => by
    have := hd _ hm; omega
  have e2 := filter_ne_of_not_mem _ _ hn
  have e3 := filter_ne_of_not_mem _ _ hn1
  cases h1 : h.result (FsOp.create (Base latest)) with
  | some e => simp [downloadKernel, osCreate, h1, Disk.log]
  | none =>
  cases h2 : h.result (FsOp.get latest) with
  | some e =>
    simp [downloadKernel, osCreate, httpGet, h1, h2, Disk.log, Disk.put, Disk.alloc,
      deferredClose, fileClose, Disk.release, List.filter_cons, e2]
  | none =>
  by_cases hs : h.statusCode = 200
  · cases h3 : h.result (FsOp.copyBody (Base latest)) with
    | some e =>
      simp [downloadKernel, osCreate, httpGet, writeAll, h1, h2, h3, hs, Disk.log, Disk.put,
        Disk.alloc, deferredClose, deferredCloseBody, fileClose, Disk.release, List.filter_cons,
        e2, e3]
    | none =>
      simp [downloadKernel, osCreate, httpGet, writeAll, h1, h2, h3, hs, Disk.log, Disk.put,
        Disk.alloc, deferredClose, deferredCloseBody, fileClose, Disk.release, List.filter_cons,
        e2, e3]
  · simp [downloadKernel, osCreate, httpGet, h1, h2, hs, Disk.log, Disk.put,
      Disk.alloc, deferredClose, deferredCloseBody, fileClose, Disk.release, List.filter_cons,
      e2, e3]

/-! ## Open handles of applyPatches -/

theorem runDeferred_openFiles (ds : List Nat) (s : Proc) :
    (runDeferred ds s).openFiles = s.openFiles.filter (fun h => !ds.contains h) := by
  induction ds generalizing s with
  | nil => simp [runDeferred]
  | cons f ds ih =>
    have : runDeferred (f :: ds) s = runDeferred ds (closeFile f s) := rfl
    rw [this, ih]
    simp only [closeFile, List.filter_filter]
    congr 1
    funext h
    by_cases hf : h = f <;> simp [hf, List.contains_cons]

theorem runDeferred_nextFd (ds : List Nat) (s : Proc) :
    (runDeferred ds s).nextFd = s.nextFd := by
  induction ds generalizing s with
  | nil => rfl
  | cons f ds ih =>
    have : runDeferred (f :: ds) s = runDeferred ds (closeFile f s) := rfl
    rw [this, ih]; rfl

theorem applyPatchesLoop_handles (w : World) (sd : String) (ps : List String) :
    ∀ (ds : List Nat) (s : Proc), (∀ fd ∈ s.openFiles, fd < s.nextFd) →
      (applyPatchesLoop w sd ps ds s).1.openFiles =
        s.openFiles.filter (fun h => !ds.contains h) ∧
      (applyPatchesLoop w sd ps ds s).1.nextFd =
        s.nextFd + (openedFiles w (throughFirstFailure w (patchSteps sd ps))).length := by
  induction ps with
  | nil =>
    intro ds s _
    simp [applyPatchesLoop, runDeferred_openFiles, runDeferred_nextFd, patchSteps,
      throughFirstFailure_nil, openedFiles]
  | cons p ps ih =>
    intro ds s hs
    have hn : s.nextFd ∉ s.openFiles := fun hm => Nat.lt_irrefl _ (hs _ hm)
    rw [patchSteps_cons, throughFirstFailure_cons]
    cases ho : w.result (Action.openFile p) with
    | some e =>
      simp [applyPatchesLoop, osOpen, perform, ho, runDeferred_openFiles, runDeferred_nextFd,
        openedFiles]
    | none =>
      rw [throughFirstFailure_cons]
      cases hr : w.result (Action.run (patchCmd sd p)) with
      | some e =>
        simp only [applyPatchesLoop, osOpen, perform, ho, hr, runDeferred_openFiles,
          runDeferred_nextFd]
        constructor
        · simp only [List.filter_cons, List.contains_cons, beq_self_eq_true, Bool.true_or,
            Bool.not_true, Bool.false_eq_true, if_false]
          apply List.filter_congr
          intro x hx
          have : x ≠ s.nextFd := by rintro rfl; exact hn hx
          simp [this]
        · simp [openedFiles, ho]
      | none =>
        simp only [applyPatchesLoop, osOpen, perform, ho, hr]
        have hwf : ∀ fd ∈ (closeFile s.nextFd
            { trace := s.trace ++ [Action.openFile p] ++ [Action.run (patchCmd sd p)],
              openFiles := s.nextFd :: s.openFiles, nextFd := s.nextFd + 1 }).openFiles,
            fd < (closeFile s.nextFd
            { trace := s.trace ++ [Action.openFile p] ++ [Action.run (patchCmd sd p)],
              openFiles := s.nextFd :: s.openFiles, nextFd := s.nextFd + 1 }).nextFd := by
          intro fd hfd
          simp only [closeFile, List.mem_filter, List.mem_cons] at hfd ⊢
          rcases hfd.1 with rfl | hm
          · simp at hfd
          · exact Nat.lt_succ_of_lt (hs _ hm)
        obtain ⟨ih1, ih2⟩ := ih (s.nextFd :: ds) _ hwf
        rw [ih1, ih2]
        constructor
        · simp only [closeFile, filter_ne_cons_self _ _ hn]
          apply List.filter_congr
          intro x hx
          have : x ≠ s.nextFd := by rintro rfl; exact hn hx
          simp [this, List.contains_cons]
        · simp [closeFile, openedFiles, ho, hr]
          omega

theorem applyPatches_handles (w : World) (sd : String) (s : Proc)
    (hs : ∀ fd ∈ s.openFiles, fd < s.nextFd) :
    (applyPatches w sd s).1.openFiles = s.openFiles ∧
    (applyPatches w sd s).1.nextFd =
      s.nextFd + (openedFiles w (throughFirstFailure w (patchSteps sd (discovered w)))).length := by
  simp only [applyPatches, discovered, Glob]
  have := applyPatchesLoop_handles w sd
    ((w.dirNames.filter (fun n => globMatch "*.patch".data n.data)).insertionSort nameLE) [] s hs
  simpa using this

/-! ## The patch loop -/

theorem invocations_patchSteps (w : World) (sd : String) (ps : List String) :
    invocations (throughFirstFailure w (patchSteps sd ps)) =
      (ps.takeWhile (patchOk w sd) ++
        ((ps.dropWhile (patchOk w sd)).take 1).filter
          (fun p => (w.result (Action.openFile p)).isNone)).map (patchCmd sd) := by
  induction ps with
  | nil => simp [patchSteps, throughFirstFailure_nil, invocations]
  | cons p ps ih =>
    rw [patchSteps_cons, throughFirstFailure_cons]
    cases ho : w.result (Action.openFile p) with
    | some e => simp [invocations, patchOk, ho]
    | none =>
      rw [throughFirstFailure_cons]
      cases hr : w.result (Action.run (patchCmd sd p)) with
      | some e => simp [invocations, patchOk, ho, hr]
      | none =>
        have hih : invocations (Action.openFile p :: Action.run (patchCmd sd p) ::
            throughFirstFailure w (patchSteps sd ps)) =
            patchCmd sd p :: invocations (throughFirstFailure w (patchSteps sd ps)) := by
          simp [invocations]
        simp only [if_true, hih, ih]
        simp [patchOk, ho, hr]

theorem firstFailure_patchSteps_isSome (w : World) (sd : String) (ps : List String) :
    (firstFailure w (patchSteps sd ps)).isSome ↔ ∃ p ∈ ps, patchOk w sd p = false := by
  induction ps with
  | nil => simp [patchSteps, firstFailure]
  | cons p ps ih =>
    rw [patchSteps_cons]
    cases ho : w.result (Action.openFile p) with
    | some e =>
      rw [firstFailure_cons_fail w _ _ e ho]
      simp [patchOk, ho]
    | none =>
      rw [firstFailure_cons_ok w _ _ ho]
      cases hr : w.result (Action.run (patchCmd sd p)) with
      | some e =>
        rw [firstFailure_cons_fail w _ _ e hr]
        simp [patchOk, ho, hr]
      | none =>
        rw [firstFailure_cons_ok w _ _ hr, ih]
        simp [patchOk, ho, hr]

theorem fatalOf_isSome_iff_firstFailure (w : World) (l : List Action) :
    (fatalOf w l).isSome ↔ (firstFailure w l).isSome := by
  have := fatalOf_eq_none_iff w l
  cases h1 : fatalOf w l <;> cases h2 : firstFailure w l <;> simp_all

theorem discovered_of_glob (w : World) (ps : List String)
    (hps : Glob w.dirNames "*.patch" = Except.ok ps) : discovered w = ps := by
  simp [discovered, hps]

/-- Claim C2, amended: for the discovered patch list `ps` and every outcome of
opening and applying each patch, `applyPatches` runs `patch -p1` (working
directory `srcdir`, the patch file as standard input) on the patches of `ps` in
list order up to the first one that fails: that one included when it could be
opened and `patch` rejected it, excluded when it could not be opened; on none
after it. It returns an error iff some patch of `ps` fails; for the empty list
it performs nothing and returns success. -/
theorem applyPatches_invokes_until_first_failure (w : World) (sd : String) (s : Proc)
    (ps : List String) (hps : Glob w.dirNames "*.patch" = Except.ok ps) :
    (applyPatches w sd s).1.trace = s.trace ++ throughFirstFailure w (patchSteps sd ps) ∧
    invocations (throughFirstFailure w (patchSteps sd ps)) =
      (ps.takeWhile (patchOk w sd) ++
        ((ps.dropWhile (patchOk w sd)).take 1).filter
          (fun p => (w.result (Action.openFile p)).isNone)).map (patchCmd sd) ∧
    ((applyPatches w sd s).2.isSome ↔ ∃ p ∈ ps, patchOk w sd p = false) ∧
    (ps = [] → (applyPatches w sd s).1.trace = s.trace ∧ (applyPatches w sd s).2 = none) := by
  have hd := discovered_of_glob w ps hps
  obtain ⟨ht, he⟩ := applyPatches_spec w s sd
  rw [hd] at ht he
  refine ⟨ht, invocations_patchSteps w sd ps, ?_, ?_⟩
  · rw [he, fatalOf_isSome_iff_firstFailure, firstFailure_patchSteps_isSome]
  · rintro rfl
    rw [ht, he]
    simp [patchSteps, throughFirstFailure_nil, fatalOf_nil]

/-- Witness for claim C2: the amended statement at the world whose only patch
file cannot be opened. -/
theorem applyPatches_invokes_until_first_failure_witness :
    Glob unreadablePatchWorld.dirNames "*.patch" = Except.ok ["0001-fix.patch"] ∧
    invocations (throughFirstFailure unreadablePatchWorld
      (patchSteps "linux" ["0001-fix.patch"])) = [] :=
  ⟨by rfl, by
    have := (applyPatches_invokes_until_first_failure unreadablePatchWorld "linux" Proc.start
      ["0001-fix.patch"] (by rfl)).2.1
    rw [this]; decide⟩

/-- Claim C2, counterexample: the only patch file cannot be opened. `applyPatches`
returns the error of `os.Open` and has run no command, whereas "up to and
including the first one that fails" names one invocation. -/
theorem applyPatches_unreadable_patch_not_invoked :
    Glob unreadablePatchWorld.dirNames "*.patch" = Except.ok ["0001-fix.patch"] ∧
    (applyPatches unreadablePatchWorld "linux" Proc.start).1.trace =
      [Action.openFile "0001-fix.patch"] ∧
    (applyPatches unreadablePatchWorld "linux" Proc.start).2 =
      some "open 0001-fix.patch: permission denied" ∧
    invocations (applyPatches unreadablePatchWorld "linux" Proc.start).1.trace = [] ∧
    claimedInvocations unreadablePatchWorld "linux" ["0001-fix.patch"] =
      [patchCmd "linux" "0001-fix.patch"] := by
  refine ⟨by rfl, ?_, ?_, ?_, ?_⟩ <;> decide

/-! ## Patch discovery -/

theorem nameLE_iff (a b : String) : nameLE a b ↔ a ≤ b := by
  unfold nameLE
  exact String.le_iff_toList_le.symm

theorem globMatch_literal (lit : List Char) (hlit : ∀ c ∈ lit, c ≠ '*' ∧ c ≠ '?')
    (n : List Char) : globMatch lit n = true ↔ n = lit := by
  induction lit generalizing n with
  | nil => cases n <;> simp [globMatch]
  | cons p ps ih =>
    have hp := hlit p (by simp)
    have hps : ∀ c ∈ ps, c ≠ '*' ∧ c ≠ '?' := fun c hc => hlit c (by simp [hc])
    cases n with
    | nil => simp [globMatch, hp.1]
    | cons c cs =>
      simp only [globMatch, hp.1, if_false, Bool.and_eq_true, Bool.or_eq_true, beq_iff_eq,
        hp.2, false_and, false_or, ih hps, List.cons.injEq]
      constructor
      · rintro ⟨h1, h2⟩; exact ⟨h1.symm, h2⟩
      · rintro ⟨h1, h2⟩; exact ⟨h1.symm, h2⟩

theorem starMatch_iff (k : List Char → Bool) (n : List Char) :
    starMatch k n = true ↔ ∃ stem rest, n = stem ++ rest ∧ '/' ∉ stem ∧ k rest = true := by
  induction n with
  | nil =>
    simp only [starMatch]
    constructor
    · intro h; exact ⟨[], [], rfl, by simp, h⟩
    · rintro ⟨stem, rest, h, _, hk⟩
      have : rest = [] := by
        have := congrArg List.length h
        simp at this
        exact List.eq_nil_of_length_eq_zero (by omega)
      rw [this] at hk; exact hk
  | cons c cs ih =>
    simp only [starMatch, Bool.or_eq_true, Bool.and_eq_true, bne_iff_ne, ne_eq, ih]
    constructor
    · rintro (h | ⟨hc, stem, rest, hn, hs, hk⟩)
      · exact ⟨[], c :: cs, rfl, by simp, h⟩
      · refine ⟨c :: stem, rest, by simp [hn], ?_, hk⟩
        simp only [List.mem_cons, not_or]
        exact ⟨fun e => hc e.symm, hs⟩
    · rintro ⟨stem, rest, hn, hs, hk⟩
      cases stem with
      | nil =>
        left
        simp only [List.nil_append] at hn
        rw [hn]; exact hk
      | cons x stem =>
        right
        simp only [List.cons_append, List.cons.injEq] at hn
        simp only [List.mem_cons, not_or] at hs
        refine ⟨?_, stem, rest, hn.2, hs.2, hk⟩
        rw [hn.1]; exact fun e => hs.1 e.symm

theorem globMatch_star (lit n : List Char) (hlit : ∀ c ∈ lit, c ≠ '*' ∧ c ≠ '?') :
    globMatch ('*' :: lit) n = true ↔ ∃ stem, n = stem ++ lit ∧ '/' ∉ stem := by
  have hstar : globMatch ('*' :: lit) = starMatch (globMatch lit) := by
    simp only [globMatch, if_true]
  rw [hstar, starMatch_iff]
  constructor
  · rintro ⟨stem, rest, hn, hs, hk⟩
    rw [globMatch_literal _ hlit] at hk
    exact ⟨stem, by rw [hn, hk], hs⟩
  · rintro ⟨stem, hn, hs⟩
    exact ⟨stem, lit, hn, hs, (globMatch_literal _ hlit lit).2 rfl⟩

theorem globMatch_star_patch (n : List Char) :
    globMatch "*.patch".data n = true ↔ ∃ stem, n = stem ++ ".patch".data ∧ '/' ∉ stem := by
  have hpat : "*.patch".data = '*' :: ".patch".data := rfl
  have hlit : ∀ c ∈ ".patch".data, c ≠ '*' ∧ c ≠ '?' := by decide
  rw [hpat]
  exact globMatch_star _ n hlit

theorem discovered_eq (w : World) :
    discovered w =
      (w.dirNames.filter (fun n => globMatch "*.patch".data n.data)).insertionSort nameLE := by
  simp [discovered, Glob]

theorem nameLE_total : IsTotal String nameLE :=
  ⟨fun a b => by simp only [nameLE_iff]; exact le_total a b⟩

theorem nameLE_trans : IsTrans String nameLE :=
  ⟨fun a b c => by simp only [nameLE_iff]; exact le_trans⟩

theorem nameLE_antisymm : IsAntisymm String nameLE :=
  ⟨fun a b => by simp only [nameLE_iff]; exact le_antisymm⟩

theorem discovered_sorted_nameLE (w : World) : (discovered w).Sorted nameLE := by
  rw [discovered_eq]
  haveI := nameLE_total
  haveI := nameLE_trans
  exact List.sorted_insertionSort nameLE _

theorem discovered_perm (w : World) :
    (discovered w).Perm (w.dirNames.filter (fun n => globMatch "*.patch".data n.data)) := by
  rw [discovered_eq]
  exact List.perm_insertionSort nameLE _

/-- Claim C3: the list `applyPatches` iterates over is what `Glob` returns for
`*.patch`: the names of the invocation directory that end in `.patch`, sorted
lexicographically by file name; it does not depend on the order in which the
directory is read, so runs over an unchanged directory iterate over the same
sequence. -/
theorem applyPatches_iterates_sorted_matches (w : World) (sd : String) (s : Proc) :
    Glob w.dirNames "*.patch" = Except.ok (discovered w) ∧
    (applyPatches w sd s).1.trace =
      s.trace ++ throughFirstFailure w (patchSteps sd (discovered w)) ∧
    (discovered w).Pairwise (fun a b => a ≤ b) ∧
    (discovered w).Perm (w.dirNames.filter (fun n => globMatch "*.patch".data n.data)) ∧
    (∀ n, n ∈ discovered w ↔
      n ∈ w.dirNames ∧ ∃ stem, n.data = stem ++ ".patch".data ∧ '/' ∉ stem) ∧
    (∀ w2 : World, w2.dirNames.Perm w.dirNames → discovered w2 = discovered w) := by
  refine ⟨by simp [discovered, Glob], (applyPatches_spec w s sd).1, ?_, discovered_perm w, ?_, ?_⟩
  · have := discovered_sorted_nameLE w
    exact List.Pairwise.imp (fun {a b} h => (nameLE_iff a b).1 h) this
  · intro n
    rw [(discovered_perm w).mem_iff, List.mem_filter, globMatch_star_patch]
  · intro w2 hperm
    haveI := nameLE_antisymm
    apply List.eq_of_perm_of_sorted (r := nameLE) _ (discovered_sorted_nameLE w2)
      (discovered_sorted_nameLE w)
    exact ((discovered_perm w2).trans (hperm.filter _)).trans (discovered_perm w).symm

/-! ## The settled claims -/

theorem str_append_ne_self (p e : String) (hp : 0 < p.length) : p ++ e ≠ e := by
  intro h
  have := congrArg String.length h
  rw [String.length_append] at this
  omega

theorem str_append_ne_of_head (p q e : String) (a b : Char) (as bs : List Char)
    (hp : p.data = a :: as) (hq : q.data = b :: bs) (hab : a ≠ b) : p ++ e ≠ q ++ e := by
  intro h
  have := congrArg String.data h
  rw [String.data_append, String.data_append, hp, hq] at this
  simp only [List.cons_append, List.cons.injEq] at this
  exact hab this.1

theorem make_defconfig_ne_make (e : String) : "make defconfig: " ++ e ≠ "make: " ++ e := by
  intro h
  have := congrArg String.data h
  rw [String.data_append, String.data_append] at this
  have h1 : "make defconfig: ".data = 'm' :: 'a' :: 'k' :: 'e' :: ' ' :: "defconfig: ".data := rfl
  have h2 : "make: ".data = 'm' :: 'a' :: 'k' :: 'e' :: ':' :: " ".data := rfl
  rw [h1, h2] at this
  simp at this

/-- Claim C5, counterexample: in a run where nothing fails `compile` makes its
three invocations, and the first, `make ARCH=arm64 gooniebox_defconfig`, runs
with the ambient environment (here empty), not with the ToolchainEnvironment. -/
theorem defconfig_runs_without_toolchain_environment :
    invocations (compile quietWorld Proc.start).1.trace =
      [defconfigCmd, makeCmd quietWorld, modulesInstallCmd quietWorld] ∧
    effectiveEnv quietWorld defconfigCmd = [] ∧
    toolchainEnvironment quietWorld =
      ["ARCH=arm64", "CROSS_COMPILE=aarch64-linux-gnu-", "KBUILD_BUILD_USER=gokrazy",
        "KBUILD_BUILD_HOST=docker", "KBUILD_BUILD_TIMESTAMP=Wed Mar  1 20:57:29 UTC 2017"] ∧
    effectiveEnv quietWorld defconfigCmd ≠ toolchainEnvironment quietWorld := by
  decide

/-- Claim C5, amended: the build invocation and the module-installation
invocation are run with the same ToolchainEnvironment (the ambient environment
extended with the five build variables); the configuration-generation
invocation leaves `Env` nil, so it runs with the unextended ambient
environment, and is given `ARCH=arm64` as an argument of `make`. -/
theorem compile_environments (w : World) (s : Proc) :
    (compile w s).1.trace = s.trace ++ throughFirstFailure w
      [Action.run defconfigCmd, Action.run (makeCmd w), Action.run (modulesInstallCmd w)] ∧
    effectiveEnv w (makeCmd w) = toolchainEnvironment w ∧
    effectiveEnv w (modulesInstallCmd w) = toolchainEnvironment w ∧
    defconfigCmd.env = none ∧
    effectiveEnv w defconfigCmd = w.environ ∧
    effectiveEnv w defconfigCmd ≠ toolchainEnvironment w ∧
    defconfigCmd.args = ["make", "ARCH=arm64", "gooniebox_defconfig"] := by
  refine ⟨(compile_spec w s).1, rfl, rfl, rfl, rfl, ?_, rfl⟩
  intro h
  have := congrArg List.length h
  simp [effectiveEnv, defconfigCmd, toolchainEnvironment] at this

/-- Claim C7, counterexample: the same underlying error gives the same fatal
message, `make: exit status 2`, whether `make Image.gz dtbs modules` or
`make modules_install` fails; and a failing download and a failing chdir both
log the bare error. -/
theorem make_failures_share_one_message :
    (main (failingAt (Action.run (makeCmd quietWorld)) "exit status 2") Proc.start).2 =
      some "make: exit status 2" ∧
    (main (failingAt (Action.run (modulesInstallCmd quietWorld)) "exit status 2") Proc.start).2 =
      some "make: exit status 2" ∧
    (main (failingAt (Action.run (makeCmd quietWorld)) "exit status 2")
      Proc.start).1.trace.getLast? = some (Action.run (makeCmd quietWorld)) ∧
    (main (failingAt (Action.run (modulesInstallCmd quietWorld)) "exit status 2")
      Proc.start).1.trace.getLast? = some (Action.run (modulesInstallCmd quietWorld)) ∧
    makeCmd quietWorld ≠ modulesInstallCmd quietWorld ∧
    (main (failingAt Action.download "exit status 2") Proc.start).2 = some "exit status 2" ∧
    (main (failingAt (Action.chdir srcdir) "exit status 2") Proc.start).2 =
      some "exit status 2" := by
  decide

/-- Claim C7, amended: the fatal message is the error of the first failing step
behind a context: `untar: ` for `tar`, `make defconfig: ` for
`make gooniebox_defconfig`, `make: ` for a later `make` invocation, and nothing
for every other step (download, copies, opening and applying patches, chdir).
For one underlying error the messages of steps with different contexts
differ. -/
theorem fatal_message_context (w : World) (s : Proc) :
    (main w s).2 = fatalOf w (pipeline w) ∧
    fatalContext w (Action.run untarCmd) = "untar: " ∧
    fatalContext w (Action.run defconfigCmd) = "make defconfig: " ∧
    fatalContext w (Action.run (makeCmd w)) = "make: " ∧
    fatalContext w (Action.run (modulesInstallCmd w)) = "make: " ∧
    (∀ a ∈ pipeline w, a ∉ Action.run untarCmd :: compileSteps w → fatalContext w a = "") ∧
    (∀ e : String, "untar: " ++ e ≠ e ∧ "make defconfig: " ++ e ≠ e ∧ "make: " ++ e ≠ e ∧
      "untar: " ++ e ≠ "make defconfig: " ++ e ∧ "untar: " ++ e ≠ "make: " ++ e ∧
      "make defconfig: " ++ e ≠ "make: " ++ e) := by
  refine ⟨(main_spec w s).2, fatalContext_untar w, fatalContext_defconfig w,
    fatalContext_make w, fatalContext_modulesInstall w, ?_, ?_⟩
  · intro a _ hna
    simp only [compileSteps, List.mem_cons, List.mem_singleton, List.not_mem_nil, or_false,
      not_or] at hna
    simp [fatalContext, hna.1, hna.2.1, hna.2.2.1, hna.2.2.2]
  · intro e
    refine ⟨str_append_ne_self _ e (by decide), str_append_ne_self _ e (by decide),
      str_append_ne_self _ e (by decide), ?_, ?_, make_defconfig_ne_make e⟩
    · exact str_append_ne_of_head _ _ e 'u' 'm' _ _ rfl rfl (by decide)
    · exact str_append_ne_of_head _ _ e 'u' 'm' _ _ rfl rfl (by decide)

theorem downloadKernel_creates_first (h : Host) (d : Disk) :
    ∃ rest, (downloadKernel h d).1.ops = d.ops ++ FsOp.create (Base latest) :: rest := by
  cases h1 : h.result (FsOp.create (Base latest)) with
  | some e => exact ⟨[], by simp [downloadKernel, osCreate, h1, Disk.log]⟩
  | none =>
  cases h2 : h.result (FsOp.get latest) with
  | some e =>
    simp [downloadKernel, osCreate, httpGet, h1, h2, Disk.log, Disk.put, Disk.alloc,
      deferredClose, fileClose, Disk.release]
  | none =>
  by_cases hs : h.statusCode = 200
  · cases h3 : h.result (FsOp.copyBody (Base latest)) with
    | some e =>
      simp [downloadKernel, osCreate, httpGet, writeAll, h1, h2, h3, hs, Disk.log, Disk.put,
        Disk.alloc, deferredClose, deferredCloseBody, fileClose, Disk.release]
    | none =>
      simp [downloadKernel, osCreate, httpGet, writeAll, h1, h2, h3, hs, Disk.log, Disk.put,
        Disk.alloc, deferredClose, deferredCloseBody, fileClose, Disk.release]
  · simp [downloadKernel, osCreate, httpGet, h1, h2, hs, Disk.log, Disk.put,
      Disk.alloc, deferredClose, deferredCloseBody, fileClose, Disk.release]

set_option maxRecDepth 100000 in
/-- Claim C8: `srcdir` is computed from the pinned URL alone: `linux-` followed by
the final path segment of the URL without its `.tar.gz` suffix, that is
`linux-b5dbe58ae4140a1ef7b86e4757e872c209b9f9ab`; the archive given to `tar xf`
is that final path segment, the file `downloadKernel` creates. -/
theorem srcdir_from_pinned_url (w : World) (h : Host) (d : Disk) :
    srcdir = "linux-" ++ TrimSuffix (Base latest) ".tar.gz" ∧
    srcdir = "linux-b5dbe58ae4140a1ef7b86e4757e872c209b9f9ab" ∧
    Base latest = "b5dbe58ae4140a1ef7b86e4757e872c209b9f9ab.tar.gz" ∧
    untarCmd.args = ["tar", "xf", Base latest] ∧
    (∃ rest, (downloadKernel h d).1.ops = d.ops ++ FsOp.create (Base latest) :: rest) ∧
    pipeline w =
      [Action.download, Action.run untarCmd,
        Action.copyFile (srcdir ++ "/arch/arm64/configs/gooniebox_defconfig") "defconfig"] ++
      patchSteps srcdir (discovered w) ++ [Action.chdir srcdir] ++ compileSteps w ++
      artifactCopies := by
  exact ⟨rfl, by decide, by decide, rfl, downloadKernel_creates_first h d, rfl⟩

/-- Claim C4: when `copyFile(dest, src)` succeeds on an existing source and a
destination different from it, the destination holds the bytes and the mode of
the source and the source is unchanged; every `copyFile` call of `main` (the
defconfig copy and the six artifact copies) has a destination different from
its source. -/
theorem copyFile_preserves_bytes_and_mode (h : Host) (d : Disk) (dest src : String) (f : File)
    (hsrc : d.files src = some f) (hne : dest ≠ src)
    (hok : (copyFile h dest src d).2 = none) :
    (copyFile h dest src d).1.files dest = some ⟨f.bytes, f.mode⟩ ∧
    (copyFile h dest src d).1.files src = some f ∧
    (∀ (w : World) (dest1 src1 : String),
      Action.copyFile dest1 src1 ∈ pipeline w → dest1 ≠ src1) :=
  ⟨(copyFile_preserves_aux h d dest src f hsrc hne hok).1,
    (copyFile_preserves_aux h d dest src f hsrc hne hok).2,
    fun w dest1 src1 hm => pipeline_copies_distinct w dest1 src1 hm⟩

/-- Witness for claim C4: a copy of `defconfig` over an older file. -/
theorem copyFile_preserves_bytes_and_mode_witness :
    (copyFile quietHost "out" "defconfig" sampleDisk).2 = none ∧
    (copyFile quietHost "out" "defconfig" sampleDisk).1.files "out" = some ⟨[1, 2, 3], 493⟩ ∧
    (copyFile quietHost "out" "defconfig" sampleDisk).1.files "defconfig" =
      some ⟨[1, 2, 3], 493⟩ :=
  ⟨by decide,
    (copyFile_preserves_bytes_and_mode quietHost sampleDisk "out" "defconfig" ⟨[1, 2, 3], 493⟩
      (by decide) (by decide) (by decide)).1,
    (copyFile_preserves_bytes_and_mode quietHost sampleDisk "out" "defconfig" ⟨[1, 2, 3], 493⟩
      (by decide) (by decide) (by decide)).2.1⟩

/-- Claim C6: for every response to the GET of the pinned URL (the local file
was created and the GET returned): with a status other than 200,
`downloadKernel` returns the error naming the URL, the status got and the
status wanted, performs no copy of the body and leaves the local file empty;
with status 200 and no transfer or close error it returns success and the
local file holds exactly the response body. The GET is performed once. -/
theorem downloadKernel_requires_status_ok (h : Host) (d : Disk)
    (hc : h.result (FsOp.create (Base latest)) = none)
    (hg : h.result (FsOp.get latest) = none) :
    (h.statusCode ≠ 200 →
      (downloadKernel h d).2 = some ("unexpected HTTP status code for " ++ latest ++ ": got " ++
        toString h.statusCode ++ ", want 200") ∧
      (∃ m, (downloadKernel h d).1.files (Base latest) = some ⟨[], m⟩) ∧
      (downloadKernel h d).1.ops = d.ops ++ [FsOp.create (Base latest), FsOp.get latest,
        FsOp.closeBody, FsOp.close (Base latest)]) ∧
    (h.statusCode = 200 → h.result (FsOp.copyBody (Base latest)) = none →
      h.result (FsOp.close (Base latest)) = none →
      (downloadKernel h d).2 = none ∧
      (∃ m, (downloadKernel h d).1.files (Base latest) = some ⟨h.body, m⟩) ∧
      (downloadKernel h d).1.ops = d.ops ++ [FsOp.create (Base latest), FsOp.get latest,
        FsOp.copyBody (Base latest), FsOp.close (Base latest), FsOp.closeBody,
        FsOp.close (Base latest)]) :=
  downloadKernel_status_aux h d hc hg

set_option maxRecDepth 100000 in
/-- Witness for claim C6: a response with status 404 and one with status 200. -/
theorem downloadKernel_requires_status_ok_witness :
    notFoundHost.statusCode ≠ 200 ∧
    (downloadKernel notFoundHost sampleDisk).2 =
      some ("unexpected HTTP status code for " ++ latest ++ ": got " ++
        toString notFoundHost.statusCode ++ ", want 200") ∧
    (downloadKernel quietHost sampleDisk).2 = none ∧
    (∃ m, (downloadKernel quietHost sampleDisk).1.files (Base latest) =
      some ⟨quietHost.body, m⟩) :=
  ⟨by decide,
    ((downloadKernel_requires_status_ok notFoundHost sampleDisk rfl rfl).1 (by decide)).1,
    ((downloadKernel_requires_status_ok quietHost sampleDisk rfl rfl).2 rfl rfl rfl).1,
    ((downloadKernel_requires_status_ok quietHost sampleDisk rfl rfl).2 rfl rfl rfl).2.1⟩

/-- Claim C9, counterexample: with a source that does not exist, `copyFile`
fails at opening the source, and the destination, which held two bytes, has
already been truncated: the destination is created before the source is
opened. -/
theorem copyFile_truncates_before_opening_source :
    sampleDisk.files "missing" = none ∧
    sampleDisk.files "out" = some ⟨[4, 5], 384⟩ ∧
    (copyFile quietHost "out" "missing" sampleDisk).2 =
      some "open missing: no such file or directory" ∧
    (copyFile quietHost "out" "missing" sampleDisk).1.files "out" = some ⟨[], 384⟩ ∧
    (copyFile quietHost "out" "missing" sampleDisk).1.ops =
      [FsOp.create "out", FsOp.openRead "missing", FsOp.close "out"] := by
  decide

/-- Claim C9, amended: `copyFile` first creates or truncates the destination and
only then opens the source. Its first step is always the creation of the
destination; when that fails nothing else is done; when it succeeds the next
step is the opening of the source, and if that opening fails the call returns
its error with the destination left empty. A call that succeeds has performed,
in order: create destination, open source, copy, stat source, chmod
destination, close destination, and the two deferred closes. -/
theorem copyFile_creates_destination_first (h : Host) (d : Disk) (dest src : String) :
    (∃ rest, (copyFile h dest src d).1.ops = d.ops ++ FsOp.create dest :: rest) ∧
    (h.result (FsOp.create dest) ≠ none →
      (copyFile h dest src d).1.ops = d.ops ++ [FsOp.create dest]) ∧
    (h.result (FsOp.create dest) = none →
      (∃ rest, (copyFile h dest src d).1.ops =
        d.ops ++ FsOp.create dest :: FsOp.openRead src :: rest) ∧
      (h.result (FsOp.openRead src) ≠ none →
        (copyFile h dest src d).2 = h.result (FsOp.openRead src) ∧
        ∃ m, (copyFile h dest src d).1.files dest = some ⟨[], m⟩)) ∧
    ((copyFile h dest src d).2 = none →
      ∃ m, (copyFile h dest src d).1.ops = d.ops ++
        [FsOp.create dest, FsOp.openRead src, FsOp.copy dest src, FsOp.stat src,
          FsOp.chmod dest m, FsOp.close dest, FsOp.close src, FsOp.close dest]) :=
  copyFile_ops h d dest src

/-- Claim C10: from a state whose open handles are all older than the next fresh
handle, `downloadKernel`, `copyFile` and `applyPatches` return, whatever the
outcome of every step, with exactly the handles open that were open at the
call: every file and response body they opened is closed. `applyPatches`
opened one handle for each patch file it opened, the failing one included. -/
theorem handles_closed_on_return (h : Host) (w : World) (d : Disk) (s : Proc)
    (dest src sd : String)
    (hd : ∀ fd ∈ d.openHandles, fd < d.nextHandle)
    (hs : ∀ fd ∈ s.openFiles, fd < s.nextFd) :
    (downloadKernel h d).1.openHandles = d.openHandles ∧
    (copyFile h dest src d).1.openHandles = d.openHandles ∧
    (applyPatches w sd s).1.openFiles = s.openFiles ∧
    (applyPatches w sd s).1.nextFd =
      s.nextFd + (openedFiles w (throughFirstFailure w (patchSteps sd (discovered w)))).length :=
  ⟨downloadKernel_handles h d hd, copyFile_handles h d dest src hd,
    (applyPatches_handles w sd s hs).1, (applyPatches_handles w sd s hs).2⟩

/-- Witness for claim C10: calls that fail midway, from states with handles
already open. -/
theorem handles_closed_on_return_witness :
    (downloadKernel notFoundHost busyDisk).1.openHandles = [2, 0] ∧
    (copyFile quietHost "out" "missing" busyDisk).1.openHandles = [2, 0] ∧
    (applyPatches rejectedPatchWorld "linux" busyProc).1.openFiles = [1] ∧
    (applyPatches rejectedPatchWorld "linux" busyProc).1.nextFd = 4 ∧
    (applyPatches rejectedPatchWorld "linux" busyProc).2 = some "exit status 1" := by
  have key := handles_closed_on_return notFoundHost rejectedPatchWorld busyDisk busyProc
    "out" "missing" "linux" (by decide) (by decide)
  have key2 := handles_closed_on_return quietHost rejectedPatchWorld busyDisk busyProc
    "out" "missing" "linux" (by decide) (by decide)
  exact ⟨key.1, key2.2.1, key.2.2.1, by decide, by decide⟩

end GokrBuildKernel
